import Mathlib

/-!
# Exercise1: matrix store (matrix.c, main.c, command.c)

A shallow embedding of the matrix entity, its binary codec and the slot
registry, followed by theorems about them.

Conventions of the embedding.

* `unsigned int` is 32 bits wide and `size_t` is 64 bits wide; arithmetic in
  either type is written with an explicit `% UINT_RANGE` or `% SIZE_RANGE`.
* A C string is the list of its bytes before the terminating zero byte.
* A pointer that may be `NULL` is an `Option`.
* A function whose execution can touch memory outside an object (or divide by
  zero) returns an `Option`: `none` stands for undefined behaviour, `some r`
  for a normal return with result `r`.
* The allocator is taken to succeed, and `calloc` of zero elements returns a
  valid empty buffer, as the C library of the target does.
* A file is the list of its bytes; opening, writing and closing a file are
  taken to succeed, and `read` on a file returns the bytes that are left, up to
  the count requested.
-/

namespace OSF15

/-! ## Machine integers and bytes -/

/-- Number of values of a C `unsigned int`. -/
def UINT_RANGE : Nat := 4294967296

/-- Number of values of a C `size_t`. -/
def SIZE_RANGE : Nat := 18446744073709551616

/-- Modelled from the spec: the constant `MATRIX_NAME_LEN` of matrix.h, which is
not among the sources; the name of a matrix, terminator included, is at most
50 bytes, the size of `name_buffer` in `read_matrix`. -/
def MATRIX_NAME_LEN : Nat := 50

/-- The value `EOF` (that is `-1`) stored into an `unsigned char`. -/
def EOF_BYTE : Nat := 255

/-- The four bytes of an `unsigned int` in memory order (little-endian). -/
def le32 (x : Nat) : List Nat :=
  [x % 256, x / 256 % 256, x / 65536 % 256, x / 16777216 % 256]

/-- The `unsigned int` held by the first four bytes of a byte list. -/
def rd32 (bs : List Nat) : Nat :=
  bs.getD 0 0 + 256 * bs.getD 1 0 + 65536 * bs.getD 2 0 + 16777216 * bs.getD 3 0

/-- The bytes of an array of `unsigned int`. -/
def bytesOf : List Nat → List Nat
  | [] => []
  | x :: xs => le32 x ++ bytesOf xs

/-- The array of `n` `unsigned int` held by the first `4 * n` bytes. -/
def wordsOf : Nat → List Nat → List Nat
  | 0, _ => []
  | n + 1, bs => rd32 bs :: wordsOf n (bs.drop 4)

/-- Length of a C string: `strlen`. -/
def strlen (s : List Nat) : Nat := s.length

/-- The C string that starts a byte buffer of which only the listed bytes are
initialised: the bytes before the first zero byte, or `none` when there is no
zero byte among them (reading on is undefined). -/
def cstring_of : List Nat → Option (List Nat)
  | [] => none
  | b :: bs => if b = 0 then some [] else (cstring_of bs).map (fun s => b :: s)

/-- The call `memcpy (dest + off, src, n)` on byte or word lists: undefined when the
source has fewer than `n` cells or the destination ends before `off + n`. -/
def memcpy (dest : List Nat) (off : Nat) (src : List Nat) (n : Nat) : Option (List Nat) :=
  if n ≤ src.length ∧ off + n ≤ dest.length then
    some (dest.take off ++ src.take n ++ dest.drop (off + n))
  else none

/-- A counted loop `for (i = 0; i < n; ++i) body`, started at counter `i`
with `k` iterations left. -/
def loopFrom {σ : Type} (body : Nat → σ → Option σ) : Nat → Nat → σ → Option σ
  | 0, _, s => some s
  | k + 1, i, s =>
    match body i s with
    | none => none
    | some s' => loopFrom body k (i + 1) s'

/-- The loop `for (i = 0; i < n; ++i) body`. -/
def forLoop {σ : Type} (n : Nat) (body : Nat → σ → Option σ) (s : σ) : Option σ :=
  loopFrom body n 0 s

/-! ## The matrix entity -/

/-- Modelled from the spec: the struct `Matrix_t` of matrix.h, which is not
among the sources: a name of at most `MATRIX_NAME_LEN` bytes, the dimensions
and the pointer to the row-major buffer of `unsigned int` (`none` is `NULL`). -/
structure Matrix_t where
  name : List Nat
  rows : Nat
  cols : Nat
  data : Option (List Nat)
deriving DecidableEq

/-- The `char name[MATRIX_NAME_LEN]` array of a matrix: the string, its
terminator and the zero bytes `calloc` left behind it. -/
def name_array (m : Matrix_t) : List Nat :=
  m.name ++ List.replicate (MATRIX_NAME_LEN - m.name.length) 0

/-- The call `calloc (n, sizeof (unsigned int))`: a buffer of `n` zeros. The
allocator is taken to succeed, so the result is never `NULL` (`none`). -/
def calloc (n : Nat) : Option (List Nat) := some (List.replicate n 0)

/-- The function `create_matrix` (matrix.c, lines 33 to 58): `none` is the return value `false`,
`some m` the return value `true` with `*new_matrix = m`. -/
def create_matrix (name : List Nat) (rows cols : Nat) : Option Matrix_t :=
  match calloc (rows * cols % UINT_RANGE) with
  | none => none
  | some data =>
    let len := (strlen name + 1) % UINT_RANGE
    if len > MATRIX_NAME_LEN then none
    else some { name := name.take len, rows := rows, cols := cols, data := some data }

/-- The function `equal_matrices` (matrix.c, lines 81 to 91); `memcmp` is undefined when one of the
buffers is shorter than the byte count. -/
def equal_matrices (a b : Option Matrix_t) : Option Bool :=
  match a, b with
  | some a, some b =>
    match a.data, b.data with
    | some da, some db =>
      let n := 4 * a.rows * a.cols % SIZE_RANGE
      if n ≤ (bytesOf da).length ∧ n ≤ (bytesOf db).length then
        some (decide ((bytesOf da).take n = (bytesOf db).take n))
      else none
    | _, _ => some false
  | _, _ => some false

/-- The function `duplicate_matrix` (matrix.c, lines 98 to 108), for `src` and `dest` two distinct
objects: the return value and the matrix `dest` points to afterwards. The
byte count is a multiple of four, so whole elements are copied. -/
def duplicate_matrix (src dest : Option Matrix_t) : Option (Bool × Option Matrix_t) :=
  match src, dest with
  | some s, some d =>
    match s.data with
    | none => some (false, dest)
    | some sd =>
      let bytesToCopy := 4 * s.rows * s.cols % SIZE_RANGE % UINT_RANGE
      match d.data with
      | none => if bytesToCopy = 0 then
          (equal_matrices src dest).map (fun r => (r, dest)) else none
      | some dd =>
        match memcpy dd 0 sd (bytesToCopy / 4) with
        | none => none
        | some dd' =>
          let dest' := some { d with data := some dd' }
          (equal_matrices src dest').map (fun r => (r, dest'))
  | _, _ => some (false, dest)

/-- One assignment `a->data[i * a->cols + j] = v`, where `v` is computed from
the old content of the cell (`none` when computing it is undefined);
undefined when the index is outside the buffer. -/
def assign_cell (v : Nat → Option Nat) (i j : Nat) (a : Matrix_t) : Option Matrix_t :=
  let idx := (i * a.cols + j) % UINT_RANGE
  match a.data with
  | none => none
  | some d =>
    if idx < d.length then
      match v (d.getD idx 0) with
      | none => none
      | some x => some { a with data := some (d.set idx x) }
    else none

/-- The expression `x << shift` on `unsigned int`, undefined for a shift
amount of 32 or more. -/
def shl32 (shift x : Nat) : Option Nat :=
  if shift < 32 then some (x * 2 ^ shift % UINT_RANGE) else none

/-- The expression `x >> shift` on `unsigned int`, undefined for a shift
amount of 32 or more. -/
def shr32 (shift x : Nat) : Option Nat :=
  if shift < 32 then some (x / 2 ^ shift) else none

/-- The function `bitwise_shift_matrix` (matrix.c, lines 116 to 141); `direction` is the character code
(`'l'` is 108, `'r'` is 114). -/
def bitwise_shift_matrix (a : Option Matrix_t) (direction shift : Nat) :
    Option (Bool × Option Matrix_t) :=
  match a with
  | none => some (false, none)
  | some m =>
    if direction ≠ 108 ∧ direction ≠ 114 then some (false, some m)
    else if direction = 108 then
      (forLoop m.rows (fun i s => forLoop s.cols (fun j t => assign_cell (shl32 shift) i j t) s) m).map
        (fun m' => (true, some m'))
    else
      (forLoop m.rows (fun i s => forLoop s.cols (fun j t => assign_cell (shr32 shift) i j t) s) m).map
        (fun m' => (true, some m'))

/-- One cell of the loop of `random_matrix`: the state is the matrix and the
number of calls of `rand` made so far; `rand k` is the value the `k`-th call
returns. The remainder by zero is undefined. -/
def random_cell (rand : Nat → Nat) (start_range end_range i j : Nat)
    (st : Matrix_t × Nat) : Option (Matrix_t × Nat) :=
  let modulus := (end_range + 1 + UINT_RANGE - start_range) % UINT_RANGE
  if modulus = 0 then none
  else
    (assign_cell (fun _ => some ((rand st.2 % modulus + start_range) % UINT_RANGE)) i j st.1).map
      (fun m => (m, st.2 + 1))

/-- The function `random_matrix` (matrix.c, lines 399 to 410): the return value, the matrix afterwards and
the number of calls of `rand` made so far. -/
def random_matrix (rand : Nat → Nat) (calls : Nat) (m : Option Matrix_t)
    (start_range end_range : Nat) : Option (Bool × Option Matrix_t × Nat) :=
  match m with
  | none => some (false, none, calls)
  | some a =>
    if start_range > end_range then some (false, some a, calls)
    else
      (forLoop a.rows
        (fun i s => forLoop s.1.cols (fun j t => random_cell rand start_range end_range i j t) s)
        (a, calls)).map (fun r => (true, some r.1, r.2))

/-- The function `load_matrix` (matrix.c, lines 419 to 425), for `data` distinct from the buffer of `m`:
the matrix afterwards. The byte count is a multiple of four. -/
def load_matrix (m : Option Matrix_t) (data : Option (List Nat)) : Option (Option Matrix_t) :=
  match m, data with
  | some a, some d =>
    match a.data with
    | none => if a.rows * a.cols % UINT_RANGE * 4 % SIZE_RANGE = 0 then some m else none
    | some ad =>
      (memcpy ad 0 d (a.rows * a.cols % UINT_RANGE * 4 % SIZE_RANGE / 4)).map
        (fun ad' => some { a with data := some ad' })
  | _, _ => some m

/-! ## Addition, on a store of matrix objects

The three arguments of `add_matrices` may point to the same object (the
command loop inserts the result into the slot array before it adds, which can
evict an operand), so the function is modelled on a store: a pointer is the
index of a cell of the store, and a cell holds a live object or nothing. -/

/-- A store of matrix objects. -/
abbrev Store := List (Option Matrix_t)

/-- The object a non-null pointer points to, if it is live. -/
def deref (h : Store) (p : Nat) : Option Matrix_t := h.getD p none

/-- The statement
`c->data[i * a->cols + j] = a->data[i * a->cols + j] + b->data[i * a->cols + j]`. -/
def add_cell (pa pb pc i j : Nat) (h : Store) : Option Store :=
  match deref h pa, deref h pb, deref h pc with
  | some a, some b, some c =>
    let idx := (i * a.cols + j) % UINT_RANGE
    match a.data, b.data, c.data with
    | some da, some db, some dc =>
      if idx < da.length ∧ idx < db.length ∧ idx < dc.length then
        some (h.set pc
          (some { c with data := some (dc.set idx ((da.getD idx 0 + db.getD idx 0) % UINT_RANGE)) }))
      else none
    | _, _, _ => none
  | _, _, _ => none

/-- The function `add_matrices` (matrix.c, lines 148 to 159): the return value and the store afterwards.
The loop counters are `int` compared with `unsigned int` bounds, which
converts them to `unsigned int`. -/
def add_matrices (h : Store) (a b c : Option Nat) : Option (Bool × Store) :=
  match a with
  | none => some (false, h)
  | some pa =>
    match deref h pa, b.bind (deref h) with
    | some ma, some mb =>
      if ma.rows ≠ mb.rows ∧ ma.cols ≠ mb.cols then some (false, h)
      else
        match b, c with
        | some pb, some pc =>
          (forLoop ma.rows (fun i s => forLoop mb.cols (fun j t => add_cell pa pb pc i j t) s) h).map
            (fun h' => (true, h'))
        | _, _ => if ma.rows = 0 ∨ mb.cols = 0 then some (true, h) else none
    | _, _ => none

/-! ## The binary codec -/

/-- The function `write_matrix` (matrix.c, lines 326 to 392), on the descriptor of the opened file:
`some none` is the return value `false`, `some (some bytes)` the return value
`true` after `bytes` were written to the file. -/
def write_matrix (m : Option Matrix_t) : Option (Option (List Nat)) :=
  match m with
  | none => some none
  | some a =>
    let name_len := (strlen a.name + 1) % UINT_RANGE
    let numberOfBytes := (4 + 4 * 2 + name_len + 4 * a.rows * a.cols + 1) % SIZE_RANGE % UINT_RANGE
    let output_buffer := List.replicate numberOfBytes 0
    let offset0 := 0
    match memcpy output_buffer offset0 (le32 name_len) 4 with
    | none => none
    | some b1 =>
      let offset1 := (offset0 + 4) % UINT_RANGE
      match memcpy b1 offset1 (name_array a) name_len with
      | none => none
      | some b2 =>
        let offset2 := (offset1 + name_len) % UINT_RANGE
        match memcpy b2 offset2 (le32 a.rows) 4 with
        | none => none
        | some b3 =>
          let offset3 := (offset2 + 4) % UINT_RANGE
          match memcpy b3 offset3 (le32 a.cols) 4 with
          | none => none
          | some b4 =>
            let offset4 := (offset3 + 4) % UINT_RANGE
            match memcpy b4 offset4 (bytesOf (a.data.getD []))
                (a.rows * a.cols % UINT_RANGE * 4 % SIZE_RANGE) with
            | none => none
            | some b5 =>
              let last := (numberOfBytes + UINT_RANGE - 1) % UINT_RANGE
              if last < b5.length then some (some (b5.set last EOF_BYTE)) else none

/-- The function `read_matrix` (matrix.c, lines 189 to 319), on the content of the opened file:
`some none` is the return value `false` (no matrix is produced),
`some (some m)` the return value `true` with `*m` the matrix read. -/
def read_matrix (file : List Nat) : Option (Option Matrix_t) :=
  let r1 := file.take 4
  if r1.length ≠ 4 then some none
  else
    let name_len := rd32 r1
    let rest1 := file.drop 4
    let name_buffer := rest1.take name_len
    if name_buffer.length > 50 then none
    else if name_buffer.length ≠ name_len then some none
    else
      let rest2 := rest1.drop name_len
      let r3 := rest2.take 4
      if r3.length ≠ 4 then some none
      else
        let rows := rd32 r3
        let rest3 := rest2.drop 4
        let r4 := rest3.take 4
        if r4.length ≠ 4 then some none
        else
          let cols := rd32 r4
          let rest4 := rest3.drop 4
          let numberOfDataBytes := rows * cols % UINT_RANGE * 4 % SIZE_RANGE % UINT_RANGE
          let r5 := rest4.take numberOfDataBytes
          let data := wordsOf (r5.length / 4) r5 ++
            List.replicate (rows * cols % UINT_RANGE - r5.length / 4) 0
          if r5.length ≠ numberOfDataBytes then some none
          else
            match cstring_of name_buffer with
            | none => none
            | some name =>
              match create_matrix name rows cols with
              | none => some none
              | some m => load_matrix (some m) (some data)

/-! ## The registry -/

/-- The slot array `mats` together with the static insertion cursor
`current_position` of `add_matrix_to_array`. -/
structure Registry where
  mats : List (Option Matrix_t)
  current_position : Nat
deriving DecidableEq

/-- The function `add_matrix_to_array` (matrix.c, lines 432 to 445): the value returned (`-1` is
`UINT_RANGE - 1`) and the registry afterwards. The occupant of the slot is
destroyed and replaced. -/
def add_matrix_to_array (r : Registry) (new_matrix : Option Matrix_t) (num_mats : Nat) :
    Option (Nat × Registry) :=
  match new_matrix with
  | none => some (UINT_RANGE - 1, r)
  | some m =>
    if num_mats = 0 then none
    else
      let pos := r.current_position % num_mats
      if pos < r.mats.length then
        some (pos % UINT_RANGE,
          { mats := r.mats.set pos (some m), current_position := r.current_position + 1 })
      else none

/-- The test `strncmp (s1, s2, n) == 0` on two C strings. -/
def strncmp_eq (s1 s2 : List Nat) (n : Nat) : Bool :=
  decide (s1.take n = s2.take n)

/-- The loop of `find_matrix_given_name` from counter `i` on, over the slots
from `i` on; reading a slot behind the end of the array is undefined. -/
def find_from (target : List Nat) (num_mats : Nat) : List (Option Matrix_t) → Nat → Option Nat
  | slots, i =>
    if i < num_mats then
      match slots with
      | [] => none
      | none :: _ => some (UINT_RANGE - 1)
      | some m :: rest =>
        if strncmp_eq m.name target (strlen m.name) then some (i % UINT_RANGE)
        else find_from target num_mats rest (i + 1)
    else some (UINT_RANGE - 1)

/-- The function `find_matrix_given_name` (main.c, lines 237 to 248); the value `-1` is `UINT_RANGE - 1`. -/
def find_matrix_given_name (mats : List (Option Matrix_t)) (num_mats : Nat)
    (target : Option (List Nat)) : Option Nat :=
  match target with
  | none => some (UINT_RANGE - 1)
  | some t => find_from t num_mats mats 0

/-! ## The command dispatcher of main.c -/

/-- The conversion of an `unsigned int` to `int` (two's complement). -/
def to_int (u : Nat) : Int :=
  if u % UINT_RANGE < 2147483648 then (u % UINT_RANGE : Nat) else (u % UINT_RANGE : Nat) - 4294967296

/-- The conversion of an `int` to `unsigned int`. -/
def to_uint (v : Int) : Nat := (v % 4294967296).toNat

/-- The value of the leading decimal digits of a string, after `acc`. -/
def digits_value : List Nat → Nat → Nat
  | [], acc => acc
  | c :: cs, acc => if 48 ≤ c ∧ c ≤ 57 then digits_value cs (acc * 10 + (c - 48)) else acc

/-- The function `atoi` on a token (a token holds no white space): an
optional sign and the leading digits. A value outside the range of `int` is
left as it is; the callers reduce it with `to_uint`. -/
def atoi : List Nat → Int
  | 45 :: rest => - (digits_value rest 0 : Int)
  | 43 :: rest => (digits_value rest 0 : Int)
  | s => (digits_value s 0 : Int)

/-- The lines `run_commands` prints. -/
inductive Message where
  | displayed
  | doesnt_exist
  | create_result_failed
  | add_failed
  | duplication_finished
  | duplication_failed
  | same_data
  | different_data
  | equal_failed
  | shifted
  | shift_failed
  | read_failed
  | read_done
  | write_failed
  | write_done
  | created
  | randomized
  | not_a_command
deriving DecidableEq

/-- What `run_commands` works on: the registry, the number of calls of `rand`
made so far, and the files (name and content; a name that is not listed does
not exist). -/
structure World where
  reg : Registry
  rand_calls : Nat
  files : List (List Nat × List Nat)
deriving DecidableEq

/-- The entry `cmd->cmds[k]`: the `k`-th token, or `NULL` behind the last one
(the array was cleared by `calloc`). -/
def arg (cmd : List (List Nat)) (k : Nat) : Option (List Nat) := cmd.get? k

/-- The test `strncmp (s, name, strlen (name) + 1) == 0` of the dispatcher. -/
def is_cmd (s name : List Nat) : Bool := strncmp_eq s name (strlen name + 1)

/-- The expression `mats[idx]` for an `int` index: undefined outside the array;
otherwise the pointer held by the slot, which is the slot index itself in the
store `mats`, or `NULL` for an empty slot. -/
def slot_ptr (mats : List (Option Matrix_t)) (idx : Int) : Option (Option Nat) :=
  if 0 ≤ idx ∧ idx.toNat < mats.length then
    match mats.getD idx.toNat none with
    | none => some none
    | some _ => some (some idx.toNat)
  else none

/-- The expression `*mats[idx]`: undefined outside the array and for an
empty slot. -/
def slot_obj (mats : List (Option Matrix_t)) (idx : Int) : Option Matrix_t :=
  if 0 ≤ idx ∧ idx.toNat < mats.length then mats.getD idx.toNat none else none

/-- The content of a file, if it exists. -/
def file_content (files : List (List Nat × List Nat)) (path : List Nat) : Option (List Nat) :=
  (files.find? (fun f => decide (f.1 = path))).map (fun f => f.2)

/-- The files after `path` was created or truncated and `bytes` written. -/
def file_store (files : List (List Nat × List Nat)) (path bytes : List Nat) :
    List (List Nat × List Nat) :=
  (path, bytes) :: files.filter (fun f => decide (f.1 ≠ path))

def CMD_display : List Nat := [100, 105, 115, 112, 108, 97, 121]
def CMD_add : List Nat := [97, 100, 100]
def CMD_duplicate : List Nat := [100, 117, 112, 108, 105, 99, 97, 116, 101]
def CMD_equal : List Nat := [101, 113, 117, 97, 108]
def CMD_shift : List Nat := [115, 104, 105, 102, 116]
def CMD_read : List Nat := [114, 101, 97, 100]
def CMD_write : List Nat := [119, 114, 105, 116, 101]
def CMD_create : List Nat := [99, 114, 101, 97, 116, 101]
def CMD_random : List Nat := [114, 97, 110, 100, 111, 109]

/-- The branch `display` of `run_commands` (main.c, lines 85 to 96). -/
def run_display (cmd : List (List Nat)) (w : World) (num_mats : Nat) :
    Option (World × List Message) :=
  match find_matrix_given_name w.reg.mats num_mats (arg cmd 1) with
  | none => none
  | some u =>
    if 0 ≤ to_int u then
      match slot_ptr w.reg.mats (to_int u) with
      | none => none
      | some _ => some (w, [Message.displayed])
    else some (w, [Message.doesnt_exist])

/-- The branch `add` of `run_commands` (main.c, lines 97 to 118): the result matrix is created and
inserted into the slot array first, then `add_matrices` runs on the slots. -/
def run_add (cmd : List (List Nat)) (w : World) (num_mats : Nat) :
    Option (World × List Message) :=
  match find_matrix_given_name w.reg.mats num_mats (arg cmd 1),
        find_matrix_given_name w.reg.mats num_mats (arg cmd 2) with
  | some u1, some u2 =>
    if 0 ≤ to_int u1 ∧ 0 ≤ to_int u2 then
      match slot_obj w.reg.mats (to_int u1) with
      | none => none
      | some m1 =>
        match (arg cmd 3).bind (fun name => create_matrix name m1.rows m1.cols) with
        | none => some (w, [Message.create_result_failed])
        | some c =>
          match add_matrix_to_array w.reg (some c) num_mats with
          | none => none
          | some (pos, reg') =>
            if pos = UINT_RANGE - 1 then some ({ w with reg := reg' }, [])
            else
              match slot_ptr reg'.mats (to_int u1), slot_ptr reg'.mats (to_int u2) with
              | some a, some b =>
                match add_matrices reg'.mats a b (some pos) with
                | none => none
                | some (true, mats') => some ({ w with reg := { reg' with mats := mats' } }, [])
                | some (false, mats') =>
                  some ({ w with reg := { reg' with mats := mats' } }, [Message.add_failed])
              | _, _ => none
    else some (w, [])
  | _, _ => none

/-- The branch `duplicate` of `run_commands` (main.c, lines 119 to 140). -/
def run_duplicate (cmd : List (List Nat)) (w : World) (num_mats : Nat) :
    Option (World × List Message) :=
  match find_matrix_given_name w.reg.mats num_mats (arg cmd 1) with
  | none => none
  | some u1 =>
    if 0 ≤ to_int u1 then
      match slot_obj w.reg.mats (to_int u1) with
      | none => none
      | some m1 =>
        match (arg cmd 2).bind (fun name => create_matrix name m1.rows m1.cols) with
        | none => some (w, [])
        | some dup_mat =>
          match duplicate_matrix (some m1) (some dup_mat) with
          | none => none
          | some (false, _) => some (w, [])
          | some (true, dup') =>
            match add_matrix_to_array w.reg dup' num_mats with
            | none => none
            | some (pos, reg') =>
              if pos = UINT_RANGE - 1 then some ({ w with reg := reg' }, [])
              else
                match slot_obj reg'.mats (to_int u1) with
                | none => none
                | some _ => some ({ w with reg := reg' }, [Message.duplication_finished])
    else some (w, [Message.duplication_failed])

/-- The branch `equal` of `run_commands` (main.c, lines 141 to 157). -/
def run_equal (cmd : List (List Nat)) (w : World) (num_mats : Nat) :
    Option (World × List Message) :=
  match find_matrix_given_name w.reg.mats num_mats (arg cmd 1),
        find_matrix_given_name w.reg.mats num_mats (arg cmd 2) with
  | some u1, some u2 =>
    if 0 ≤ to_int u1 ∧ 0 ≤ to_int u2 then
      match slot_ptr w.reg.mats (to_int u1), slot_ptr w.reg.mats (to_int u2) with
      | some a, some b =>
        match equal_matrices (a.bind (deref w.reg.mats)) (b.bind (deref w.reg.mats)) with
        | none => none
        | some true => some (w, [Message.same_data])
        | some false => some (w, [Message.different_data])
      | _, _ => none
    else some (w, [Message.equal_failed])
  | _, _ => none

/-- The branch `shift` of `run_commands` (main.c, lines 158 to 173). -/
def run_shift (cmd : List (List Nat)) (w : World) (num_mats : Nat) :
    Option (World × List Message) :=
  match find_matrix_given_name w.reg.mats num_mats (arg cmd 1), arg cmd 2, arg cmd 3 with
  | some u1, some dir, some amount =>
    let shift_value := to_int (to_uint (atoi amount))
    if 0 ≤ to_int u1 then
      match slot_ptr w.reg.mats (to_int u1) with
      | none => none
      | some a =>
        match bitwise_shift_matrix (a.bind (deref w.reg.mats)) (dir.getD 0 0)
            (to_uint shift_value) with
        | none => none
        | some (false, _) => some (w, [])
        | some (true, m') =>
          some ({ w with reg := { w.reg with mats := w.reg.mats.set (to_int u1).toNat m' } },
            [Message.shifted])
    else some (w, [Message.shift_failed])
  | _, _, _ => none

/-- The branch `read` of `run_commands` (main.c, lines 174 to 186); `read_matrix` returns `false` for an
empty file name and for a file that cannot be opened. -/
def run_read (cmd : List (List Nat)) (w : World) (num_mats : Nat) :
    Option (World × List Message) :=
  match arg cmd 1 with
  | none => none
  | some path =>
    if path = [] then some (w, [Message.read_failed])
    else
      match file_content w.files path with
      | none => some (w, [Message.read_failed])
      | some file =>
        match read_matrix file with
        | none => none
        | some none => some (w, [Message.read_failed])
        | some (some new_matrix) =>
          match add_matrix_to_array w.reg (some new_matrix) num_mats with
          | none => none
          | some (pos, reg') =>
            if pos = UINT_RANGE - 1 then some ({ w with reg := reg' }, [])
            else some ({ w with reg := reg' }, [Message.read_done])

/-- The branch `write` of `run_commands` (main.c, lines 187 to 197): the index found is used without a
test; the file is named after the matrix, and a file with an empty name
cannot be opened. -/
def run_write (cmd : List (List Nat)) (w : World) (num_mats : Nat) :
    Option (World × List Message) :=
  match find_matrix_given_name w.reg.mats num_mats (arg cmd 1) with
  | none => none
  | some u1 =>
    match slot_obj w.reg.mats (to_int u1) with
    | none => none
    | some m =>
      if m.name = [] then some (w, [Message.write_failed])
      else
        match write_matrix (some m) with
        | none => none
        | some none => some (w, [Message.write_failed])
        | some (some bytes) =>
          some ({ w with files := file_store w.files m.name bytes }, [Message.write_done])

/-- The branch `create` of `run_commands` (main.c, lines 198 to 211). -/
def run_create (cmd : List (List Nat)) (w : World) (num_mats : Nat) :
    Option (World × List Message) :=
  match arg cmd 1, arg cmd 2, arg cmd 3 with
  | some name, some r, some c =>
    match create_matrix name (to_uint (atoi r)) (to_uint (atoi c)) with
    | none => some (w, [])
    | some new_mat =>
      match add_matrix_to_array w.reg (some new_mat) num_mats with
      | none => none
      | some (pos, reg') =>
        if pos = UINT_RANGE - 1 then some ({ w with reg := reg' }, [])
        else some ({ w with reg := reg' }, [Message.created])
  | _, _, _ => none

/-- The branch `random` of `run_commands` (main.c, lines 212 to 225). -/
def run_random (rand : Nat → Nat) (cmd : List (List Nat)) (w : World) (num_mats : Nat) :
    Option (World × List Message) :=
  match find_matrix_given_name w.reg.mats num_mats (arg cmd 1), arg cmd 2, arg cmd 3 with
  | some u1, some lo, some hi =>
    if to_int u1 = -1 then some (w, [])
    else
      match slot_ptr w.reg.mats (to_int u1) with
      | none => none
      | some a =>
        match random_matrix rand w.rand_calls (a.bind (deref w.reg.mats))
            (to_uint (atoi lo)) (to_uint (atoi hi)) with
        | none => none
        | some (false, _, calls) => some ({ w with rand_calls := calls }, [])
        | some (true, m', calls) =>
          some ({ w with reg := { w.reg with mats := w.reg.mats.set (to_int u1).toNat m' },
                         rand_calls := calls }, [Message.randomized])
  | _, _, _ => none

/-- The function `run_commands` (main.c, lines 79 to 230): `cmd` is the token list (`cmd->num_cmds` is
its length), `rand k` the value of the `k`-th call of `rand`. The result is
the world afterwards and the lines printed. -/
def run_commands (rand : Nat → Nat) (cmd : List (List Nat)) (w : World) (num_mats : Nat) :
    Option (World × List Message) :=
  match arg cmd 0 with
  | none => none
  | some c0 =>
    if is_cmd c0 CMD_display ∧ cmd.length = 2 then run_display cmd w num_mats
    else if is_cmd c0 CMD_add ∧ cmd.length = 4 then run_add cmd w num_mats
    else if is_cmd c0 CMD_duplicate ∧ cmd.length = 3
        ∧ strlen ((arg cmd 1).getD []) + 1 ≤ MATRIX_NAME_LEN then
      run_duplicate cmd w num_mats
    else if is_cmd c0 CMD_equal ∧ cmd.length = 2 then run_equal cmd w num_mats
    else if is_cmd c0 CMD_shift ∧ cmd.length = 4 then run_shift cmd w num_mats
    else if is_cmd c0 CMD_read ∧ cmd.length = 2 then run_read cmd w num_mats
    else if is_cmd c0 CMD_write ∧ cmd.length = 2 then run_write cmd w num_mats
    else if is_cmd c0 CMD_create then
      match arg cmd 1 with
      | none => none
      | some name =>
        if strlen name + 1 ≤ MATRIX_NAME_LEN ∧ cmd.length = 4 then run_create cmd w num_mats
        else some (w, [Message.not_a_command])
    else if is_cmd c0 CMD_random ∧ cmd.length = 4 then run_random rand cmd w num_mats
    else some (w, [Message.not_a_command])

/-- The matrix of the scenario `create A 2 2`, `random A 1 1`. -/
def scenario_A : Matrix_t :=
  { name := [65], rows := 2, cols := 2, data := some [1, 1, 1, 1] }

/-- A matrix `A` of 32768 rows and 32768 columns filled with ones. -/
def ones_4GiB : Matrix_t :=
  { name := [65], rows := 32768, cols := 32768, data := some (1 :: List.replicate 1073741823 1) }

/-- A matrix `B` of 32768 rows and 32768 columns filled with zeros, as
`create_matrix` leaves it. -/
def zeros_4GiB : Matrix_t :=
  { name := [66], rows := 32768, cols := 32768, data := some (0 :: List.replicate 1073741823 0) }

/-- The matrix `X` of the scenario `create X 2 3`. -/
def scenario_X : Matrix_t :=
  { name := [88], rows := 2, cols := 3, data := some [0, 0, 0, 0, 0, 0] }

/-- The matrix `Y` of the scenario `create Y 3 2`. -/
def scenario_Y : Matrix_t :=
  { name := [89], rows := 3, cols := 2, data := some [0, 0, 0, 0, 0, 0] }

/-- The matrix `Z` the command `add X Y Z` creates: the dimensions of `X`. -/
def scenario_Z : Matrix_t :=
  { name := [90], rows := 2, cols := 3, data := some [0, 0, 0, 0, 0, 0] }

/-- A world whose registry of ten slots holds `X` and `Y` only, with the
cursor at 2. -/
def scenario_XY : World :=
  { reg := { mats := [some scenario_X, some scenario_Y, none, none, none, none, none, none,
                      none, none],
             current_position := 2 },
    rand_calls := 0, files := [] }

/-- The world `scenario_XY` with `Z` in slot 2 and the cursor advanced. -/
def scenario_XYZ : World :=
  { reg := { mats := [some scenario_X, some scenario_Y, some scenario_Z, none, none, none, none,
                      none, none, none],
             current_position := 3 },
    rand_calls := 0, files := [] }

/-- A 1 by 1 matrix named `AB`. -/
def matrix_AB : Matrix_t := { name := [65, 66], rows := 1, cols := 1, data := some [0] }

/-- A 1 by 1 matrix named `A`. -/
def matrix_A1 : Matrix_t := { name := [65], rows := 1, cols := 1, data := some [0] }

/-- The string `temp_mat`. -/
def TEMP_MAT : List Nat := [116, 101, 109, 112, 95, 109, 97, 116]

/-- The start of `main` (main.c, lines 24 to 51), up to the first prompt: ten
empty slots, the matrix `temp_mat` (5 by 5) created, inserted, filled with
random values from 10 to 15 and written to the file `temp_mat`. The result is
`none` when the run is undefined or `main` returns before the prompt. -/
def main_init (rand : Nat → Nat) : Option World :=
  match create_matrix TEMP_MAT 5 5 with
  | none => none
  | some temp =>
    match add_matrix_to_array ⟨List.replicate 10 none, 0⟩ (some temp) 10 with
    | none => none
    | some (pos, reg) =>
      if pos = UINT_RANGE - 1 then none
      else
        match find_matrix_given_name reg.mats 10 (some TEMP_MAT) with
        | none => none
        | some u =>
          if to_int u < 0 then none
          else
            match slot_ptr reg.mats (to_int u) with
            | none => none
            | some p =>
              match random_matrix rand 0 (p.bind (deref reg.mats)) 10 15 with
              | none => none
              | some (_, m', calls) =>
                let mats' := reg.mats.set (to_int u).toNat m'
                match write_matrix m' with
                | none => none
                | some none => none
                | some (some bytes) =>
                  some { reg := { reg with mats := mats' }, rand_calls := calls,
                         files := file_store [] TEMP_MAT bytes }

/-- The loop of `main` (main.c, lines 54 to 68) over the lines typed before
`exit`, each given as its token list: `run_commands` is called for a line of
more than one token. The result is the world at the end and all lines printed. -/
def command_loop (rand : Nat → Nat) :
    List (List (List Nat)) → World → Option (World × List Message)
  | [], w => some (w, [])
  | cmd :: rest, w =>
    if cmd.length > 1 then
      match run_commands rand cmd w 10 with
      | none => none
      | some (w', out) => (command_loop rand rest w').map (fun r => (r.1, out ++ r.2))
    else command_loop rand rest w

/-- The program from its start through the given lines: the registry at the
end and the lines printed. -/
def program (rand : Nat → Nat) (lines : List (List (List Nat))) :
    Option (Registry × List Message) :=
  ((main_init rand).bind (command_loop rand lines)).map (fun r => (r.1.reg, r.2))

/-- The matrix `temp_mat` after the start of `main`, when every call of `rand`
returns 0. -/
def temp_mat : Matrix_t :=
  { name := TEMP_MAT, rows := 5, cols := 5, data := some (List.replicate 25 10) }

/-- A sequence of calls `add_matrix_to_array (mats, m, N)`, one for each
matrix of the list in turn: the registry after the last call, or `none` when a
call is undefined. -/
def insert_all (N : Nat) : Registry → List Matrix_t → Option Registry
  | r, [] => some r
  | r, m :: ms =>
    match add_matrix_to_array r (some m) N with
    | none => none
    | some (_, r') => insert_all N r' ms

/-! ## Bytes, strings and block copies -/

theorem le32_length (x : Nat) : (le32 x).length = 4 := rfl

theorem bytesOf_length (d : List Nat) : (bytesOf d).length = 4 * d.length := by
  induction d with
  | nil => rfl
  | cons x xs ih => simp [bytesOf, le32_length, ih]; omega

theorem rd32_le32 (x : Nat) (rest : List Nat) (hx : x < UINT_RANGE) :
    rd32 (le32 x ++ rest) = x := by
  simp only [UINT_RANGE] at hx
  simp [rd32, le32]
  omega

theorem wordsOf_bytesOf (d rest : List Nat) (hd : ∀ x ∈ d, x < UINT_RANGE) :
    wordsOf d.length (bytesOf d ++ rest) = d := by
  induction d with
  | nil => rfl
  | cons x xs ih =>
    have hx : x < UINT_RANGE := hd x (List.mem_cons_self _ _)
    have hxs : ∀ y ∈ xs, y < UINT_RANGE := fun y hy => hd y (List.mem_cons_of_mem _ hy)
    simp only [List.length_cons, wordsOf, bytesOf, List.append_assoc]
    rw [rd32_le32 x _ hx]
    have : List.drop 4 (le32 x ++ (bytesOf xs ++ rest)) = bytesOf xs ++ rest := by
      simp [le32]
    rw [this, ih hxs]

theorem loopFrom_inv {σ : Type} (body : Nat → σ → Option σ) (I : Nat → σ → Prop) :
    ∀ (k i : Nat) (s : σ), I i s →
      (∀ j t, i ≤ j → j < i + k → I j t → ∃ t', body j t = some t' ∧ I (j + 1) t') →
      ∃ s', loopFrom body k i s = some s' ∧ I (i + k) s' := by
  intro k
  induction k with
  | zero => intro i s h _; exact ⟨s, rfl, h⟩
  | succ k ih =>
    intro i s h hstep
    obtain ⟨t, ht, hI⟩ := hstep i s (Nat.le_refl i) (by omega) h
    obtain ⟨s', hs', hI'⟩ := ih (i + 1) t hI
      (fun j u h1 h2 hu => hstep j u (by omega) (by omega) hu)
    refine ⟨s', ?_, ?_⟩
    · simp only [loopFrom, ht]; exact hs'
    · have : i + (k + 1) = i + 1 + k := by omega
      rw [this]; exact hI'

theorem forLoop_inv {σ : Type} (n : Nat) (body : Nat → σ → Option σ) (I : Nat → σ → Prop)
    (s : σ) (h0 : I 0 s)
    (hstep : ∀ j t, j < n → I j t → ∃ t', body j t = some t' ∧ I (j + 1) t') :
    ∃ s', forLoop n body s = some s' ∧ I n s' := by
  have := loopFrom_inv body I n 0 s h0 (fun j t _ h2 hI => hstep j t (by omega) hI)
  simpa [forLoop] using this

/-- Row-major nested loops: an invariant indexed by the number of cells
already processed. -/
theorem nested_inv {σ : Type} (rows cols : Nat) (nb : σ → Nat)
    (cell : Nat → Nat → σ → Option σ) (P : Nat → σ → Prop)
    (hb : ∀ k s, P k s → nb s = cols)
    (hcell : ∀ i j s, i < rows → j < cols → P (i * cols + j) s →
      ∃ s', cell i j s = some s' ∧ P (i * cols + j + 1) s')
    (s : σ) (h0 : P 0 s) :
    ∃ s', forLoop rows (fun i t => forLoop (nb t) (fun j u => cell i j u) t) s = some s'
      ∧ P (rows * cols) s' := by
  apply forLoop_inv rows _ (fun i t => P (i * cols) t) s (by simpa using h0)
  intro i t hi hP
  rw [hb _ _ hP]
  have := forLoop_inv cols (fun j u => cell i j u) (fun j u => P (i * cols + j) u) t
    (by simpa using hP) (fun j u hj hu => hcell i j u hi hj hu)
  have e : (i + 1) * cols = i * cols + cols := by ring
  rw [e]
  exact this

theorem cell_index_lt (rows cols i j : Nat) (hi : i < rows) (hj : j < cols) :
    i * cols + j < rows * cols := by
  have : (i + 1) * cols ≤ rows * cols := Nat.mul_le_mul_right cols hi
  have e : (i + 1) * cols = i * cols + cols := by ring
  omega

theorem set_boundary (l r : List Nat) (k v : Nat) (hl : k < l.length) (hr : l.length = r.length)
    (hv : l.getD k 0 = v) :
    (l.take k ++ r.drop k).set k v = l.take (k + 1) ++ r.drop (k + 1) := by
  have hk : (l.take k).length = k := by simp; omega
  rw [List.set_append_right _ _ (by omega), hk, Nat.sub_self]
  have hr' : k < r.length := by omega
  rw [List.drop_eq_getElem_cons hr', List.set_cons_zero, List.take_succ]
  have : l[k]? = some v := by
    rw [List.getD_eq_getElem?_getD, List.getElem?_eq_getElem hl] at hv
    rw [List.getElem?_eq_getElem hl]
    simpa using hv
  simp [this]

theorem getD_boundary (l r : List Nat) (k : Nat) (hr : l.length = r.length) (hk : k < r.length) :
    (l.take k ++ r.drop k).getD k 0 = r.getD k 0 := by
  have hk' : (l.take k).length = k := by simp; omega
  rw [List.getD_eq_getElem?_getD, List.getD_eq_getElem?_getD,
    List.getElem?_append_right (by omega), hk', Nat.sub_self]
  simp

theorem assign_cell_step (v : Nat → Option Nat) (m : Matrix_t) (l d : List Nat)
    (k i j x : Nat) (hidx : i * m.cols + j = k) (hk : k < d.length) (hl : l.length = d.length)
    (hU : d.length ≤ UINT_RANGE) (hv : v (d.getD k 0) = some x) (hx : l.getD k 0 = x) :
    assign_cell v i j { m with data := some (l.take k ++ d.drop k) }
      = some { m with data := some (l.take (k + 1) ++ d.drop (k + 1)) } := by
  have hmod : (i * m.cols + j) % UINT_RANGE = k := by
    rw [hidx]; exact Nat.mod_eq_of_lt (by omega)
  have hlen : (l.take k ++ d.drop k).length = d.length := by
    simp; omega
  simp only [assign_cell, hmod, hlen, hk, if_true, getD_boundary l d k hl hk, hv,
    set_boundary l d k x (by omega) hl hx]

theorem map_cells (v : Nat → Option Nat) (f : Nat → Nat) (hv : ∀ x, v x = some (f x))
    (m : Matrix_t) (d : List Nat) (hd : m.data = some d)
    (hlen : d.length = m.rows * m.cols) (hU : d.length ≤ UINT_RANGE) :
    forLoop m.rows (fun i s => forLoop s.cols (fun j t => assign_cell v i j t) s) m
      = some { m with data := some (d.map f) } := by
  have key := nested_inv m.rows m.cols (fun s : Matrix_t => s.cols)
    (fun i j t => assign_cell v i j t)
    (fun k s => s = { m with data := some ((d.map f).take k ++ d.drop k) })
    (fun k s hs => by rw [hs])
    (fun i j s hi hj hs => by
      have hlt := cell_index_lt m.rows m.cols i j hi hj
      refine ⟨_, ?_, rfl⟩
      rw [hs]
      exact assign_cell_step v m (d.map f) d (i * m.cols + j) i j (f (d.getD (i * m.cols + j) 0))
        rfl (by omega) (by simp) hU (hv _)
        (by
          rw [List.getD_eq_getElem?_getD, List.getD_eq_getElem?_getD, List.getElem?_map]
          rw [List.getElem?_eq_getElem (by omega : i * m.cols + j < d.length)]
          simp))
    m (by cases m; simp_all)
  obtain ⟨s', hs', hP⟩ := key
  rw [hs', hP, ← hlen]
  simp

theorem shift_spec (m : Matrix_t) (d : List Nat) (direction k : Nat)
    (hd : m.data = some d) (hlen : d.length = m.rows * m.cols)
    (hU : m.rows * m.cols < UINT_RANGE) (hk : k < 32) :
    (direction ≠ 108 ∧ direction ≠ 114 →
        bitwise_shift_matrix (some m) direction k = some (false, some m)) ∧
    bitwise_shift_matrix (some m) 108 k
      = some (true, some { name := m.name, rows := m.rows, cols := m.cols,
                           data := some (d.map (fun x => x * 2 ^ k % UINT_RANGE)) }) ∧
    bitwise_shift_matrix (some m) 114 k
      = some (true, some { name := m.name, rows := m.rows, cols := m.cols,
                           data := some (d.map (fun x => x / 2 ^ k)) }) := by
  have hl := map_cells (shl32 k) (fun x => x * 2 ^ k % UINT_RANGE)
    (fun x => by simp [shl32, hk]) m d hd hlen (by omega)
  have hr := map_cells (shr32 k) (fun x => x / 2 ^ k)
    (fun x => by simp [shr32, hk]) m d hd hlen (by omega)
  refine ⟨?_, ?_, ?_⟩
  · intro h
    simp [bitwise_shift_matrix, h]
  · simp [bitwise_shift_matrix, hl]
  · simp [bitwise_shift_matrix, hr]

theorem bytesOf_take_cons_ne (x y : Nat) (ts td : List Nat) (n : Nat) (hn : 0 < n)
    (hxy : x % 256 ≠ y % 256) :
    (bytesOf (x :: ts)).take n ≠ (bytesOf (y :: td)).take n := by
  obtain ⟨k, rfl⟩ : ∃ k, n = k + 1 := ⟨n - 1, by omega⟩
  simp only [bytesOf, le32, List.cons_append, List.take_succ_cons]
  intro h
  exact hxy (List.cons.inj h).1

/-- When the byte count of `duplicate_matrix` wraps to zero nothing is copied,
and the comparison that follows, which does not wrap, sees the difference. -/
theorem duplicate_matrix_wrapped (src dest : Matrix_t) (x y : Nat) (ts td : List Nat)
    (hs : src.data = some (x :: ts)) (hd : dest.data = some (y :: td))
    (hwrap : 4 * src.rows * src.cols % SIZE_RANGE % UINT_RANGE = 0)
    (hpos : 0 < 4 * src.rows * src.cols % SIZE_RANGE)
    (hls : 4 * src.rows * src.cols % SIZE_RANGE ≤ 4 * (ts.length + 1))
    (hld : 4 * src.rows * src.cols % SIZE_RANGE ≤ 4 * (td.length + 1))
    (hxy : x % 256 ≠ y % 256) :
    duplicate_matrix (some src) (some dest) = some (false, some dest) := by
  have hm : memcpy (y :: td) 0 (x :: ts) 0 = some (y :: td) := by
    simp [memcpy]
  have hdest : ({ dest with data := some (y :: td) } : Matrix_t) = dest := by
    cases dest; simp_all
  have hcond : 4 * src.rows * src.cols % SIZE_RANGE ≤ (bytesOf (x :: ts)).length ∧
      4 * src.rows * src.cols % SIZE_RANGE ≤ (bytesOf (y :: td)).length := by
    rw [bytesOf_length, bytesOf_length]
    exact ⟨hls, hld⟩
  have hne := bytesOf_take_cons_ne x y ts td _ hpos hxy
  simp only [duplicate_matrix, hs, hd, hwrap, Nat.zero_div, hm, hdest, equal_matrices, hcond,
    and_self, if_true, hne, decide_False, Option.map_some']

/-! ## Truncated files -/

theorem duplicate_matrix_copies (src dest : Matrix_t) (sd dd : List Nat)
    (hs : src.data = some sd) (hd : dest.data = some dd)
    (hls : sd.length = src.rows * src.cols) (hld : dd.length = src.rows * src.cols)
    (hfit : 4 * (src.rows * src.cols) < UINT_RANGE) :
    duplicate_matrix (some src) (some dest)
        = some (true, some { name := dest.name, rows := dest.rows, cols := dest.cols,
                             data := some sd })
      ∧ equal_matrices (some src) (some { name := dest.name, rows := dest.rows,
                                          cols := dest.cols, data := some sd }) = some true := by
  have hb : 4 * src.rows * src.cols % SIZE_RANGE % UINT_RANGE / 4 = sd.length := by
    rw [hls, Nat.mul_assoc]; simp only [SIZE_RANGE, UINT_RANGE] at *; omega
  have hn : 4 * src.rows * src.cols % SIZE_RANGE = 4 * sd.length := by
    rw [hls, Nat.mul_assoc]; simp only [SIZE_RANGE, UINT_RANGE] at *; omega
  have hm : memcpy dd 0 sd sd.length = some sd := by
    have hc : sd.length ≤ sd.length ∧ 0 + sd.length ≤ dd.length := by omega
    have hdrop : dd.drop (0 + sd.length) = [] := List.drop_of_length_le (by omega)
    simp only [memcpy, hc, and_self, if_true, hdrop, List.take_zero, List.nil_append,
      List.take_length, List.append_nil]
  have heq : equal_matrices (some src)
      (some (Matrix_t.mk dest.name dest.rows dest.cols (some sd))) = some true := by
    simp only [equal_matrices, hs, hn, bytesOf_length, Nat.le_refl, and_self, if_true,
      decide_True]
  refine ⟨?_, heq⟩
  simp only [duplicate_matrix, hs, hd, hb, hm, heq, Option.map_some']

/-! ## Shift by zero -/

theorem map_shl_zero (d : List Nat) (helem : ∀ x ∈ d, x < UINT_RANGE) :
    d.map (fun x => x * 2 ^ 0 % UINT_RANGE) = d := by
  have : ∀ x ∈ d, (fun x => x * 2 ^ 0 % UINT_RANGE) x = id x := by
    intro x hx
    simp only [pow_zero, Nat.mul_one, id]
    exact Nat.mod_eq_of_lt (helem x hx)
  rw [List.map_congr_left this, List.map_id]

theorem map_shr_zero (d : List Nat) : d.map (fun x => x / 2 ^ 0) = d := by
  simp

/-! ## Lookup by name -/

theorem strncmp_eq_iff (s t : List Nat) : strncmp_eq s t (strlen s) = true ↔ s <+: t := by
  simp only [strncmp_eq, strlen, decide_eq_true_eq, List.take_length]
  exact (List.prefix_iff_eq_take).symm

theorem find_from_found (target : List Nat) (num_mats : Nat) :
    ∀ (slots : List (Option Matrix_t)) (i0 k : Nat) (m : Matrix_t),
      slots.get? k = some (some m) →
      (∀ j, j < k → ∃ mj, slots.get? j = some (some mj) ∧ ¬ mj.name <+: target) →
      m.name <+: target → i0 + k < num_mats →
      find_from target num_mats slots i0 = some ((i0 + k) % UINT_RANGE) := by
  intro slots
  induction slots with
  | nil => intro i0 k m h; simp at h
  | cons s rest ih =>
    intro i0 k m hk hbefore hm hlt
    have hi0 : i0 < num_mats := by omega
    cases k with
    | zero =>
      simp only [List.get?_cons_zero, Option.some.injEq] at hk
      subst hk
      simp only [find_from, hi0, if_true, (strncmp_eq_iff m.name target).2 hm, Nat.add_zero]
    | succ k =>
      obtain ⟨m0, h0, hn0⟩ := hbefore 0 (by omega)
      simp only [List.get?_cons_zero, Option.some.injEq] at h0
      subst h0
      have hf : strncmp_eq m0.name target (strlen m0.name) = false := by
        cases hc : strncmp_eq m0.name target (strlen m0.name) with
        | false => rfl
        | true => exact absurd ((strncmp_eq_iff _ _).1 hc) hn0
      have := ih (i0 + 1) k m (by simpa using hk)
        (fun j hj => by simpa using hbefore (j + 1) (by omega)) hm (by omega)
      simp only [find_from, hi0, if_true, hf, Bool.false_eq_true, if_false, this]
      congr 2
      omega

theorem find_from_missing (target : List Nat) (num_mats : Nat) :
    ∀ (slots : List (Option Matrix_t)) (i0 : Nat),
      i0 + slots.length = num_mats →
      (∀ k m, (∀ j, j ≤ k → ∃ mj, slots.get? j = some (some mj)) →
        slots.get? k = some (some m) → ¬ m.name <+: target) →
      find_from target num_mats slots i0 = some (UINT_RANGE - 1) := by
  intro slots
  induction slots with
  | nil =>
    intro i0 h _
    have : ¬ (i0 < num_mats) := by simp at h; omega
    simp only [find_from, this, if_false]
  | cons s rest ih =>
    intro i0 hlen hno
    have hi0 : i0 < num_mats := by simp at hlen; omega
    cases s with
    | none => simp only [find_from, hi0, if_true]
    | some m0 =>
      have hn0 : ¬ m0.name <+: target :=
        hno 0 m0 (fun j hj => ⟨m0, by
          have : j = 0 := by omega
          subst this; rfl⟩) rfl
      have hf : strncmp_eq m0.name target (strlen m0.name) = false := by
        cases hc : strncmp_eq m0.name target (strlen m0.name) with
        | false => rfl
        | true => exact absurd ((strncmp_eq_iff _ _).1 hc) hn0
      have := ih (i0 + 1) (by simp at hlen ⊢; omega)
        (fun k m hall hk => hno (k + 1) m
          (fun j hj => by
            cases j with
            | zero => exact ⟨m0, rfl⟩
            | succ j => simpa using hall j (by omega))
          (by simpa using hk))
      simp only [find_from, hi0, if_true, hf, Bool.false_eq_true, if_false, this]

/-! ## Equality of buffers -/

theorem bytesOf_take (l : List Nat) : ∀ c, (bytesOf l).take (4 * c) = bytesOf (l.take c) := by
  induction l with
  | nil => intro c; simp [bytesOf]
  | cons x xs ih =>
    intro c
    cases c with
    | zero => simp [bytesOf]
    | succ c =>
      have e : 4 * (c + 1) = (le32 x).length + 4 * c := by rw [le32_length]; omega
      rw [List.take_succ_cons, bytesOf, bytesOf, e, List.take_append, ih]

theorem bytesOf_injective (a b : List Nat) (hlen : a.length = b.length)
    (ha : ∀ x ∈ a, x < UINT_RANGE) (hb : ∀ x ∈ b, x < UINT_RANGE)
    (h : bytesOf a = bytesOf b) : a = b := by
  have h1 := wordsOf_bytesOf a [] ha
  have h2 := wordsOf_bytesOf b [] hb
  rw [h, hlen] at h1
  rw [← h1, h2]

theorem equal_true_words (a b : Matrix_t) (da db : List Nat)
    (ha : a.data = some da) (hb : b.data = some db)
    (hla : da.length = a.rows * a.cols) (hU : a.rows * a.cols < UINT_RANGE)
    (hea : ∀ x ∈ da, x < UINT_RANGE) (heb : ∀ x ∈ db, x < UINT_RANGE)
    (h : equal_matrices (some a) (some b) = some true) :
    da.length ≤ db.length ∧ db.take da.length = da := by
  have hn : 4 * a.rows * a.cols % SIZE_RANGE = 4 * da.length := by
    rw [hla, Nat.mul_assoc]; simp only [SIZE_RANGE, UINT_RANGE] at *; omega
  simp only [equal_matrices, ha, hb, hn, bytesOf_length] at h
  split at h
  · rename_i hc
    simp only [Option.some.injEq, decide_eq_true_eq] at h
    rw [bytesOf_take, bytesOf_take, List.take_length] at h
    have hle : da.length ≤ db.length := by omega
    refine ⟨hle, ?_⟩
    exact (bytesOf_injective da (db.take da.length) (by simp; omega) hea
      (fun x hx => heb x (List.mem_of_mem_take hx)) h).symm
  · exact Option.noConfusion h

theorem duplicate_true_equal (src dest d' : Option Matrix_t)
    (h : duplicate_matrix src dest = some (true, d')) :
    equal_matrices src d' = some true := by
  unfold duplicate_matrix at h
  split at h
  · rename_i s d
    split at h
    · simp at h
    · rename_i sd hsd
      simp only [] at h
      split at h
      · split at h
        · cases he : equal_matrices (some s) (some d) with
          | none => rw [he] at h; simp at h
          | some r =>
            rw [he] at h
            simp only [Option.map_some', Option.some.injEq, Prod.mk.injEq] at h
            rw [← h.2, he, h.1]
        · simp at h
      · split at h
        · simp at h
        · rename_i dd'' hm
          cases he : equal_matrices (some s)
              (some { name := d.name, rows := d.rows, cols := d.cols, data := some dd'' }) with
          | none => rw [he] at h; simp at h
          | some r =>
            rw [he] at h
            simp only [Option.map_some', Option.some.injEq, Prod.mk.injEq] at h
            rw [← h.2, he, h.1]
  · simp at h

theorem equal_matrices_refl (m : Matrix_t) (d : List Nat) (hd : m.data = some d)
    (hlen : d.length = m.rows * m.cols) (hU : m.rows * m.cols < UINT_RANGE) :
    equal_matrices (some m) (some m) = some true := by
  have hn : 4 * m.rows * m.cols % SIZE_RANGE = 4 * d.length := by
    rw [hlen, Nat.mul_assoc]; simp only [SIZE_RANGE, UINT_RANGE] at *; omega
  simp only [equal_matrices, hd, hn, bytesOf_length, Nat.le_refl, and_self, if_true,
    decide_True]

/-! ## Sequences of insertions -/

theorem add_matrix_to_array_step (r : Registry) (m : Matrix_t) (N : Nat)
    (hcap : r.mats.length = N) (hpos : 0 < N) :
    add_matrix_to_array r (some m) N
      = some (r.current_position % N % UINT_RANGE,
          { mats := r.mats.set (r.current_position % N) (some m),
            current_position := r.current_position + 1 }) := by
  have hlt : r.current_position % N < r.mats.length := by
    rw [hcap]; exact Nat.mod_lt _ hpos
  have hne : ¬ (N = 0) := by omega
  simp only [add_matrix_to_array, hne, if_false, hlt, if_true]

theorem insert_all_occupied (N : Nat) (hpos : 0 < N) :
    ∀ (ms : List Matrix_t) (r : Registry), r.mats.length = N →
      (∀ i, i < N → ((r.mats.getD i none).isSome = true ↔ i < min r.current_position N)) →
      ∃ r', insert_all N r ms = some r' ∧ r'.mats.length = N
        ∧ r'.current_position = r.current_position + ms.length
        ∧ ∀ i, i < N → ((r'.mats.getD i none).isSome = true ↔ i < min r'.current_position N) := by
  intro ms
  induction ms with
  | nil => intro r hcap hocc; exact ⟨r, rfl, hcap, rfl, hocc⟩
  | cons m ms ih =>
    intro r hcap hocc
    have hlt : r.current_position % N < N := Nat.mod_lt _ hpos
    obtain ⟨r', h1, h2, h3, h4⟩ := ih
      { mats := r.mats.set (r.current_position % N) (some m),
        current_position := r.current_position + 1 }
      (by simp [hcap])
      (by
        intro i hi
        simp only [List.getD_eq_getElem?_getD]
        by_cases hip : i = r.current_position % N
        · subst hip
          rw [List.getElem?_set_self (by omega)]
          simp only [Option.getD_some, Option.isSome_some, true_iff]
          rcases Nat.lt_or_ge r.current_position N with hc | hc
          · rw [Nat.mod_eq_of_lt hc]; omega
          · omega
        · rw [List.getElem?_set_ne (Ne.symm hip)]
          have := hocc i hi
          simp only [List.getD_eq_getElem?_getD] at this
          rw [this]
          rcases Nat.lt_or_ge r.current_position N with hc | hc
          · rw [Nat.mod_eq_of_lt hc] at hip; omega
          · omega)
    refine ⟨r', ?_, h2, ?_, h4⟩
    · simp only [insert_all, add_matrix_to_array_step r m N hcap hpos]
      exact h1
    · rw [h3]; simp only [List.length_cons]; omega

theorem find_from_reaches (target : List Nat) (num_mats : Nat) :
    ∀ (slots : List (Option Matrix_t)) (i0 k : Nat) (m : Matrix_t),
      slots.get? k = some (some m) →
      (∀ j, j < k → ∃ mj, slots.get? j = some (some mj)) →
      m.name <+: target → i0 + k < num_mats →
      ∃ j, j ≤ k ∧ find_from target num_mats slots i0 = some ((i0 + j) % UINT_RANGE) := by
  intro slots
  induction slots with
  | nil => intro i0 k m h; simp at h
  | cons s rest ih =>
    intro i0 k m hk hbefore hm hlt
    have hi0 : i0 < num_mats := by omega
    cases k with
    | zero =>
      simp only [List.get?_cons_zero, Option.some.injEq] at hk
      subst hk
      refine ⟨0, Nat.le_refl 0, ?_⟩
      simp only [find_from, hi0, if_true, (strncmp_eq_iff m.name target).2 hm, Nat.add_zero]
    | succ k =>
      obtain ⟨m0, h0⟩ := hbefore 0 (by omega)
      simp only [List.get?_cons_zero, Option.some.injEq] at h0
      subst h0
      cases hc : strncmp_eq m0.name target (strlen m0.name) with
      | true =>
        refine ⟨0, by omega, ?_⟩
        simp only [find_from, hi0, if_true, hc, Nat.add_zero]
      | false =>
        obtain ⟨j, hj, hf⟩ := ih (i0 + 1) k m (by simpa using hk)
          (fun j hj => by simpa using hbefore (j + 1) (by omega)) hm (by omega)
        refine ⟨j + 1, by omega, ?_⟩
        simp only [find_from, hi0, if_true, hc, Bool.false_eq_true, if_false, hf]
        congr 2
        omega

/-! ## The claims

The claims C1 to C21 in order; each is stated on the definitions above and
proved from the lemmas above. -/

/-- C4, the code at the failing input: an all-zero 2 by 3 matrix and an
all-zero 3 by 2 matrix are reported equal, because `equal_matrices` compares
the buffers only and never the dimensions. -/
theorem equal_matrices_ignores_shape :
    equal_matrices (create_matrix [65] 2 3) (create_matrix [66] 3 2) = some true := by
  decide

/-- C5, as amended. For a source with a buffer of `rows * cols` elements
whose byte count `4 * rows * cols` fits 32 bits and a destination of the same
dimensions, `duplicate_matrix` returns true, afterwards the buffer of the
destination is the buffer of the source and `equal_matrices` holds of the two;
the name and the dimensions of the destination are kept (the source is only
read). -/
theorem duplicate_copies (src dest : Matrix_t) (sd dd : List Nat)
    (hs : src.data = some sd) (hd : dest.data = some dd)
    (hr : dest.rows = src.rows) (hc : dest.cols = src.cols)
    (hls : sd.length = src.rows * src.cols) (hld : dd.length = dest.rows * dest.cols)
    (hfit : 4 * (src.rows * src.cols) < UINT_RANGE) :
    duplicate_matrix (some src) (some dest)
        = some (true, some { name := dest.name, rows := dest.rows, cols := dest.cols,
                             data := some sd })
      ∧ equal_matrices (some src) (some { name := dest.name, rows := dest.rows,
                                          cols := dest.cols, data := some sd }) = some true :=
  duplicate_matrix_copies src dest sd dd hs hd hls (by rw [hld, hr, hc]) hfit

/-- C5, witness: the scenario matrix `A` duplicated into a fresh 2 by 2
matrix `B`. -/
theorem duplicate_copies_witness :
    duplicate_matrix (some scenario_A)
        (some { name := [66], rows := 2, cols := 2, data := some [0, 0, 0, 0] })
      = some (true, some { name := [66], rows := 2, cols := 2, data := some [1, 1, 1, 1] }) :=
  (duplicate_copies scenario_A { name := [66], rows := 2, cols := 2, data := some [0, 0, 0, 0] }
    [1, 1, 1, 1] [0, 0, 0, 0] rfl rfl rfl rfl (by decide) (by decide) (by decide)).1

/-- C5, counterexample: source and destination are 32768 by 32768 with
buffers of exactly `rows * cols` elements, yet `duplicate_matrix` returns
false and the destination keeps its zeros: the byte count `2 ^ 32` wraps to
zero, nothing is copied, and the comparison sees the difference. -/
theorem duplicate_counterexample :
    (1 :: List.replicate 1073741823 1).length = ones_4GiB.rows * ones_4GiB.cols
      ∧ (0 :: List.replicate 1073741823 0).length = zeros_4GiB.rows * zeros_4GiB.cols
      ∧ duplicate_matrix (some ones_4GiB) (some zeros_4GiB) = some (false, some zeros_4GiB) :=
  ⟨by rw [List.length_cons, List.length_replicate]; decide,
   by rw [List.length_cons, List.length_replicate]; decide,
   duplicate_matrix_wrapped ones_4GiB zeros_4GiB 1 0 _ _ rfl rfl (by decide) (by decide)
    (by rw [List.length_replicate]; decide) (by rw [List.length_replicate]; decide) (by decide)⟩

/-- C8, the code at the failing input. From the start of the program, after
`create X 2 3` and `create Y 3 2` the registry holds `temp_mat`, `X`, `Y` and
the cursor is 3; the command `add X Y Z` then prints the failure line, but the
zero matrix `Z` sits in slot 3 afterwards and the cursor is 4: the result is
inserted before `add_matrices` validates the operands. The same on the
registry that holds `X` and `Y` only. -/
theorem failed_add_inserts_result :
    program (fun _ => 0) [[CMD_create, [88], [50], [51]], [CMD_create, [89], [51], [50]]]
        = some (⟨[some temp_mat, some scenario_X, some scenario_Y, none, none, none, none,
                  none, none, none], 3⟩,
                [Message.created, Message.created])
      ∧ program (fun _ => 0) [[CMD_create, [88], [50], [51]], [CMD_create, [89], [51], [50]],
          [CMD_add, [88], [89], [90]]]
        = some (⟨[some temp_mat, some scenario_X, some scenario_Y, some scenario_Z, none, none,
                  none, none, none, none], 4⟩,
                [Message.created, Message.created, Message.add_failed])
      ∧ run_commands (fun _ => 0) [CMD_add, [88], [89], [90]] scenario_XY 10
        = some (scenario_XYZ, [Message.add_failed]) := by
  set_option maxRecDepth 100000 in decide

/-- C10. For a matrix with a buffer of `rows * cols` elements
(`rows * cols < 2 ^ 32`), every direction and every amount `k < 32`: a
direction that is neither `'l'` nor `'r'` makes `bitwise_shift_matrix` return
false and leave the matrix unchanged; `'l'` returns true and turns every
element `x` into `(x * 2 ^ k) mod 2 ^ 32`; `'r'` returns true and turns every
element `x` into `x / 2 ^ k`; name, rows and cols are unchanged throughout. -/
theorem shift_elementwise (m : Matrix_t) (d : List Nat) (direction k : Nat)
    (hd : m.data = some d) (hlen : d.length = m.rows * m.cols)
    (hU : m.rows * m.cols < UINT_RANGE) (hk : k < 32) :
    (direction ≠ 108 ∧ direction ≠ 114 →
        bitwise_shift_matrix (some m) direction k = some (false, some m))
      ∧ bitwise_shift_matrix (some m) 108 k
        = some (true, some { name := m.name, rows := m.rows, cols := m.cols,
                             data := some (d.map (fun x => x * 2 ^ k % UINT_RANGE)) })
      ∧ bitwise_shift_matrix (some m) 114 k
        = some (true, some { name := m.name, rows := m.rows, cols := m.cols,
                             data := some (d.map (fun x => x / 2 ^ k)) }) :=
  shift_spec m d direction k hd hlen hU hk

/-- C10, witness: shifting a 2 by 2 matrix left by 31 and right by 1. -/
theorem shift_elementwise_witness :
    bitwise_shift_matrix
        (some { name := [65], rows := 2, cols := 2, data := some [7, 8, 9, 4294967295] }) 108 31
      = some (true, some { name := [65], rows := 2, cols := 2,
                           data := some [2147483648, 0, 2147483648, 2147483648] })
    ∧ bitwise_shift_matrix
        (some { name := [65], rows := 2, cols := 2, data := some [7, 8, 9, 4294967295] }) 114 1
      = some (true, some { name := [65], rows := 2, cols := 2,
                           data := some [3, 4, 4, 2147483647] }) :=
  ⟨(shift_elementwise { name := [65], rows := 2, cols := 2, data := some [7, 8, 9, 4294967295] }
      [7, 8, 9, 4294967295] 0 31 rfl (by decide) (by decide) (by decide)).2.1,
   (shift_elementwise { name := [65], rows := 2, cols := 2, data := some [7, 8, 9, 4294967295] }
      [7, 8, 9, 4294967295] 0 1 rfl (by decide) (by decide) (by decide)).2.2⟩

/-- C11. Shift identity: on a matrix with a buffer of `rows * cols` 32-bit
elements, `bitwise_shift_matrix` with direction `'l'` and amount 0, and with
direction `'r'` and amount 0, returns true and leaves the matrix, and so every
element, as it was. -/
theorem shift_identity (m : Matrix_t) (d : List Nat)
    (hd : m.data = some d) (hlen : d.length = m.rows * m.cols)
    (hU : m.rows * m.cols < UINT_RANGE) (helem : ∀ x ∈ d, x < UINT_RANGE) :
    bitwise_shift_matrix (some m) 108 0 = some (true, some m)
      ∧ bitwise_shift_matrix (some m) 114 0 = some (true, some m) := by
  have h := shift_spec m d 0 0 hd hlen hU (by decide)
  have hm : ({ name := m.name, rows := m.rows, cols := m.cols, data := some d } : Matrix_t) = m := by
    cases m; simp_all
  rw [map_shl_zero d helem, map_shr_zero d, hm] at h
  exact ⟨h.2.1, h.2.2⟩

/-- C11, witness: the scenario matrix `A` shifted by zero either way. -/
theorem shift_identity_witness :
    bitwise_shift_matrix (some scenario_A) 108 0 = some (true, some scenario_A)
      ∧ bitwise_shift_matrix (some scenario_A) 114 0 = some (true, some scenario_A) :=
  shift_identity scenario_A [1, 1, 1, 1] rfl (by decide) (by decide) (by decide)

/-- C12. For a name whose length with the terminator is an `unsigned int` and
`rows * cols` representable in 32 bits (the allocator succeeds in the model):
`create_matrix` fails exactly when `strlen (name) + 1 > 50`; on success the
matrix has the given name, rows and cols and a buffer of `rows * cols` zeros;
`rows = 0` or `cols = 0` is accepted and gives an empty buffer. -/
theorem create_matrix_spec (name : List Nat) (rows cols : Nat)
    (hlen : strlen name + 1 < UINT_RANGE) (hrc : rows * cols < UINT_RANGE) :
    (create_matrix name rows cols = none ↔ strlen name + 1 > MATRIX_NAME_LEN)
      ∧ (strlen name + 1 ≤ MATRIX_NAME_LEN →
          create_matrix name rows cols
            = some { name := name, rows := rows, cols := cols,
                     data := some (List.replicate (rows * cols) 0) })
      ∧ (strlen name + 1 ≤ MATRIX_NAME_LEN → rows = 0 ∨ cols = 0 →
          create_matrix name rows cols
            = some { name := name, rows := rows, cols := cols, data := some [] }) := by
  have e1 : (strlen name + 1) % UINT_RANGE = strlen name + 1 := Nat.mod_eq_of_lt hlen
  have e2 : rows * cols % UINT_RANGE = rows * cols := Nat.mod_eq_of_lt hrc
  have hok : strlen name + 1 ≤ MATRIX_NAME_LEN →
      create_matrix name rows cols
        = some { name := name, rows := rows, cols := cols,
                 data := some (List.replicate (rows * cols) 0) } := by
    intro h
    have hn : ¬ (strlen name + 1 > MATRIX_NAME_LEN) := by omega
    have ht : name.take (strlen name + 1) = name :=
      List.take_of_length_le (by simp only [strlen]; omega)
    simp only [create_matrix, calloc, e1, e2, hn, if_false, ht]
  refine ⟨?_, hok, ?_⟩
  · constructor
    · intro h
      by_contra hc
      rw [hok (by omega)] at h
      exact Option.noConfusion h
    · intro h
      simp only [create_matrix, calloc, e1, h, if_true]
  · intro h hz
    have hzero : rows * cols = 0 := by
      rcases hz with hz | hz <;> simp [hz]
    rw [hok h, hzero]
    rfl

/-- C12, witness: `create A 2 2` succeeds with four zeros, and a name of 50
characters is refused. -/
theorem create_matrix_spec_witness :
    create_matrix [65] 2 2
        = some { name := [65], rows := 2, cols := 2, data := some (List.replicate (2 * 2) 0) }
      ∧ create_matrix (List.replicate 50 65) 2 2 = none :=
  ⟨(create_matrix_spec [65] 2 2 (by decide) (by decide)).2.1 (by decide),
   (create_matrix_spec (List.replicate 50 65) 2 2 (by decide) (by decide)).1.2 (by decide)⟩

/-- C13. For a registry of capacity `N > 0` (an `unsigned int`) with cursor
`k` and a non-null matrix `m`, `add_matrix_to_array` returns `k mod N`, which
is not the failure value `-1`; afterwards slot `k mod N` holds `m` in place of
its previous occupant, the cursor is `k + 1`, and every other slot holds what
it held before. -/
theorem add_matrix_to_array_spec (r : Registry) (m : Matrix_t) (N : Nat)
    (hcap : r.mats.length = N) (hpos : 0 < N) (hN : N < UINT_RANGE) :
    ∃ r', add_matrix_to_array r (some m) N = some (r.current_position % N, r')
      ∧ r.current_position % N ≠ UINT_RANGE - 1
      ∧ r'.mats.length = N
      ∧ r'.mats.getD (r.current_position % N) none = some m
      ∧ r'.current_position = r.current_position + 1
      ∧ ∀ i, i ≠ r.current_position % N → r'.mats.getD i none = r.mats.getD i none := by
  have hlt : r.current_position % N < N := Nat.mod_lt _ hpos
  have hne : ¬ (N = 0) := by omega
  have hlt' : r.current_position % N < r.mats.length := by omega
  have hmod : r.current_position % N % UINT_RANGE = r.current_position % N :=
    Nat.mod_eq_of_lt (by omega)
  refine ⟨{ mats := r.mats.set (r.current_position % N) (some m),
            current_position := r.current_position + 1 }, ?_, ?_, ?_, ?_, rfl, ?_⟩
  · simp only [add_matrix_to_array, hne, if_false, hlt', if_true, hmod]
  · simp only [UINT_RANGE] at *; omega
  · simp [hcap]
  · simp [List.getD_eq_getElem?_getD, hlt']
  · intro i hi
    simp only [List.getD_eq_getElem?_getD]
    rw [List.getElem?_set_ne (Ne.symm hi)]

/-- C13, witness: the third insertion into a registry of two slots lands in
slot 0. -/
theorem add_matrix_to_array_spec_witness :
    ∃ r', add_matrix_to_array ⟨[some scenario_X, some scenario_Y], 2⟩ (some scenario_Z) 2
          = some (2 % 2, r')
      ∧ 2 % 2 ≠ UINT_RANGE - 1
      ∧ r'.mats.length = 2
      ∧ r'.mats.getD (2 % 2) none = some scenario_Z
      ∧ r'.current_position = 2 + 1
      ∧ ∀ i, i ≠ 2 % 2 →
          r'.mats.getD i none = ([some scenario_X, some scenario_Y] : List (Option Matrix_t)).getD i none :=
  add_matrix_to_array_spec ⟨[some scenario_X, some scenario_Y], 2⟩ scenario_Z 2 rfl (by decide)
    (by decide)

/-- C14, the code at the failing input: capacity 1, the matrices `AB` and then
`A` (distinct names) inserted into the empty registry. Afterwards slot 0 holds
`A` and `AB` is gone, yet looking up the name `AB` returns index 0 and not
`-1`: the comparison covers only the length of the stored name `A`. -/
theorem evicted_name_still_found :
    add_matrix_to_array ⟨[none], 0⟩ (some matrix_AB) 1 = some (0, ⟨[some matrix_AB], 1⟩)
      ∧ add_matrix_to_array ⟨[some matrix_AB], 1⟩ (some matrix_A1) 1
          = some (0, ⟨[some matrix_A1], 2⟩)
      ∧ find_matrix_given_name [some matrix_A1] 1 (some matrix_AB.name) = some 0 := by
  decide

/-- C15. `find_matrix_given_name` scans the slots in increasing order up to the
first empty slot and returns the smallest index whose stored name is an
initial part of the target (the comparison covers `strlen` of the stored name
bytes only); it returns `-1` when no scanned slot is such. So a target that
extends a stored name is found at that slot, and a stored name longer than the
target is not matched by it. -/
theorem find_first_match (mats : List (Option Matrix_t)) (target : List Nat)
    (hN : mats.length < UINT_RANGE) :
    (∀ i m, mats.get? i = some (some m) →
        (∀ j, j < i → ∃ mj, mats.get? j = some (some mj) ∧ ¬ mj.name <+: target) →
        m.name <+: target →
        find_matrix_given_name mats mats.length (some target) = some i)
      ∧ ((∀ k m, (∀ j, j ≤ k → ∃ mj, mats.get? j = some (some mj)) →
            mats.get? k = some (some m) → ¬ m.name <+: target) →
          find_matrix_given_name mats mats.length (some target) = some (UINT_RANGE - 1))
      ∧ (∀ s t : List Nat, strncmp_eq s t (strlen s) = true ↔ s <+: t)
      ∧ (∀ s t : List Nat, t.length < s.length → strncmp_eq s t (strlen s) = false)
      ∧ find_matrix_given_name [some scenario_A, none] 2 (some [65, 66]) = some 0 := by
  refine ⟨?_, ?_, strncmp_eq_iff, ?_, by decide⟩
  · intro i m hi hbefore hm
    have hlt : i < mats.length := by
      rcases Nat.lt_or_ge i mats.length with h | h
      · exact h
      · rw [List.get?_eq_none.2 h] at hi
        exact Option.noConfusion hi
    have := find_from_found target mats.length mats 0 i m hi hbefore hm (by omega)
    rw [Nat.zero_add, Nat.mod_eq_of_lt (by omega)] at this
    exact this
  · intro hno
    exact find_from_missing target mats.length mats 0 (by omega) hno
  · intro s t hlt
    cases hc : strncmp_eq s t (strlen s) with
    | false => rfl
    | true =>
      have := ((strncmp_eq_iff s t).1 hc).length_le
      omega

/-- C15, witness: with `X` in slot 0 and `Y` in slot 1 the target `Y` is found
at index 1. -/
theorem find_first_match_witness :
    find_matrix_given_name [some scenario_X, some scenario_Y, none] 3 (some [89]) = some 1 :=
  (find_first_match [some scenario_X, some scenario_Y, none] [89] (by decide)).1 1 scenario_Y rfl
    (by
      intro j hj
      have : j = 0 := by omega
      subst this
      exact ⟨scenario_X, rfl, by decide⟩)
    (by decide)

/-- C16, the code at the failing input: `create_matrix` with 65536 rows and
65536 columns succeeds with an empty buffer, because the element count given
to the allocator is the product reduced modulo `2 ^ 32`, which is 0 and not
`rows * cols`; the command `create A 65536 65536` at the start of the program
puts this matrix into slot 1. -/
theorem allocator_count_wraps :
    create_matrix [65] 65536 65536
        = some { name := [65], rows := 65536, cols := 65536, data := some [] }
      ∧ 65536 * 65536 % UINT_RANGE = 0 ∧ 65536 * 65536 = 4294967296
      ∧ program (fun _ => 0) [[CMD_create, [65], [54, 53, 53, 51, 54], [54, 53, 53, 51, 54]]]
        = some (⟨[some temp_mat,
                  some { name := [65], rows := 65536, cols := 65536, data := some [] },
                  none, none, none, none, none, none, none, none], 2⟩, [Message.created]) := by
  set_option maxRecDepth 100000 in decide

/-- C17, the code at the failing input. From the start of the program the
command `create X 2 3` runs, and the command `write Q` that follows is
undefined: the name `Q` resolves to not-found and the write branch indexes the
slot array with `-1`. The same on the registry that holds `X` and `Y` only. -/
theorem write_uses_missing_index :
    program (fun _ => 0) [[CMD_create, [88], [50], [51]]]
        = some (⟨[some temp_mat, some scenario_X, none, none, none, none, none, none, none,
                  none], 2⟩, [Message.created])
      ∧ program (fun _ => 0) [[CMD_create, [88], [50], [51]], [CMD_write, [81]]] = none
      ∧ find_matrix_given_name scenario_XY.reg.mats 10 (some [81]) = some (UINT_RANGE - 1)
      ∧ to_int (UINT_RANGE - 1) = -1
      ∧ slot_obj scenario_XY.reg.mats (-1) = none
      ∧ run_commands (fun _ => 0) [CMD_write, [81]] scenario_XY 10 = none := by
  set_option maxRecDepth 100000 in decide

/-- C18, the code at the failing input. From the start of the program, after
`create X 2 3` and `create Y 3 2`, the three tokens `equal X Y` are answered
with the line for an unknown command, because the equality branch asks for two
tokens. On the registry that holds `X` and `Y` only, both names resolve, the
three tokens get the same answer, and with the two tokens `equal X` the branch
is taken and reports an equality failure. -/
theorem equal_with_two_names_unknown :
    program (fun _ => 0) [[CMD_create, [88], [50], [51]], [CMD_create, [89], [51], [50]],
          [CMD_equal, [88], [89]]]
        = some (⟨[some temp_mat, some scenario_X, some scenario_Y, none, none, none, none,
                  none, none, none], 3⟩,
                [Message.created, Message.created, Message.not_a_command])
      ∧ find_matrix_given_name scenario_XY.reg.mats 10 (some [88]) = some 0
      ∧ find_matrix_given_name scenario_XY.reg.mats 10 (some [89]) = some 1
      ∧ run_commands (fun _ => 0) [CMD_equal, [88], [89]] scenario_XY 10
          = some (scenario_XY, [Message.not_a_command])
      ∧ run_commands (fun _ => 0) [CMD_equal, [88]] scenario_XY 10
          = some (scenario_XY, [Message.equal_failed]) := by
  set_option maxRecDepth 100000 in decide

/-- C19. Equality detects divergence: for a matrix `m` with a buffer of
`rows * cols` 32-bit elements, once `duplicate_matrix (m, dest)` has returned
true for whatever `dest`, replacing the element of the duplicate at any offset
`k < rows * cols` by a different 32-bit value makes `equal_matrices` return
false; and `equal_matrices (m, m)` is true. -/
theorem equality_detects_divergence (m dest dest' : Matrix_t) (sd dd' : List Nat) (k v : Nat)
    (hs : m.data = some sd) (hls : sd.length = m.rows * m.cols)
    (hU : m.rows * m.cols < UINT_RANGE) (hse : ∀ x ∈ sd, x < UINT_RANGE)
    (hdup : duplicate_matrix (some m) (some dest) = some (true, some dest'))
    (hd' : dest'.data = some dd') (hde : ∀ x ∈ dd', x < UINT_RANGE)
    (hk : k < m.rows * m.cols) (hv : v < UINT_RANGE) (hne : v ≠ dd'.getD k 0) :
    equal_matrices (some m)
        (some { name := dest'.name, rows := dest'.rows, cols := dest'.cols,
                data := some (dd'.set k v) }) = some false
      ∧ equal_matrices (some m) (some m) = some true := by
  refine ⟨?_, equal_matrices_refl m sd hs hls hU⟩
  have heq := duplicate_true_equal _ _ _ hdup
  obtain ⟨hle, htake⟩ := equal_true_words m dest' sd dd' hs hd' hls hU hse hde heq
  have hksd : k < sd.length := by omega
  have hkdd : k < dd'.length := by omega
  have hsk : sd.getD k 0 = dd'.getD k 0 := by
    conv_lhs => rw [← htake]
    simp only [List.getD_eq_getElem?_getD, List.getElem?_take, hksd, if_true]
  cases hres : equal_matrices (some m)
      (some (Matrix_t.mk dest'.name dest'.rows dest'.cols (some (dd'.set k v)))) with
  | none =>
    exfalso
    have hn : 4 * m.rows * m.cols % SIZE_RANGE = 4 * sd.length := by
      rw [hls, Nat.mul_assoc]; simp only [SIZE_RANGE, UINT_RANGE] at *; omega
    have hc : 4 * sd.length ≤ 4 * sd.length ∧ 4 * sd.length ≤ 4 * (dd'.set k v).length := by
      rw [List.length_set]; omega
    simp only [equal_matrices, hs, hn, bytesOf_length, hc, and_self, if_true] at hres
    exact Option.noConfusion hres
  | some r =>
    cases r with
    | false => rfl
    | true =>
      exfalso
      have hset : ∀ x ∈ dd'.set k v, x < UINT_RANGE := by
        intro x hx
        rcases List.mem_or_eq_of_mem_set hx with h | h
        · exact hde x h
        · rw [h]; exact hv
      obtain ⟨_, htake2⟩ := equal_true_words m
        (Matrix_t.mk dest'.name dest'.rows dest'.cols (some (dd'.set k v))) sd (dd'.set k v)
        hs rfl hls hU hse hset hres
      have hvk : sd.getD k 0 = v := by
        conv_lhs => rw [← htake2]
        simp only [List.getD_eq_getElem?_getD, List.getElem?_take, hksd, if_true,
          List.getElem?_set_self hkdd]
        rfl
      exact hne (by rw [← hvk, hsk])

/-- C19, witness: the scenario matrix `A` duplicated into a fresh matrix `B`,
whose element at offset 3 is then set to 2. -/
theorem equality_detects_divergence_witness :
    equal_matrices (some scenario_A)
        (some { name := [66], rows := 2, cols := 2, data := some [1, 1, 1, 2] }) = some false
      ∧ equal_matrices (some scenario_A) (some scenario_A) = some true :=
  equality_detects_divergence scenario_A
    { name := [66], rows := 2, cols := 2, data := some [0, 0, 0, 0] }
    { name := [66], rows := 2, cols := 2, data := some [1, 1, 1, 1] }
    [1, 1, 1, 1] [1, 1, 1, 1] 3 2 rfl (by decide) (by decide) (by decide) (by decide) rfl
    (by decide) (by decide) (by decide) (by decide)

/-- C20, the code at the failing input: for `low = 0` and `high = 4294967295`
the range check passes, the modulus `high + 1 - low` is 0 in `unsigned int`
arithmetic, and every cell of the loop of `random_matrix` is an undefined
remainder by zero; so is the command `random A 0 -1` after `create A 1 1` at
the start of the program. -/
theorem full_range_modulus_zero :
    ¬ (0 > 4294967295) ∧ (4294967295 + 1 + UINT_RANGE - 0) % UINT_RANGE = 0
      ∧ (∀ (rand : Nat → Nat) (i j : Nat) (st : Matrix_t × Nat),
          random_cell rand 0 4294967295 i j st = none)
      ∧ to_uint (atoi [45, 49]) = 4294967295
      ∧ program (fun _ => 0) [[CMD_create, [65], [49], [49]],
          [CMD_random, [65], [48], [45, 49]]] = none := by
  refine ⟨by decide, by decide, ?_, by decide, by set_option maxRecDepth 100000 in decide⟩
  intro rand i j st
  have h : (4294967295 + 1 + UINT_RANGE - 0) % UINT_RANGE = 0 := by decide
  simp only [random_cell, h, if_true]

/-- C21. Occupied-initial-segment invariant: from the all-empty registry of
capacity `N > 0` with cursor 0, any sequence of `k` calls of
`add_matrix_to_array` with non-null matrices is defined and leaves exactly the
slots `0 .. min (k, N) - 1` occupied, so that no empty slot precedes an
occupied one; hence the scan of `find_matrix_given_name`, which stops at the
first empty slot, reaches every live matrix: when the name of the matrix in
slot `i` is an initial part of the target, the index found is at most `i`. -/
theorem occupied_initial_segment (N : Nat) (ms : List Matrix_t) (hpos : 0 < N)
    (hN : N < UINT_RANGE) :
    ∃ r', insert_all N ⟨List.replicate N none, 0⟩ ms = some r'
      ∧ r'.mats.length = N ∧ r'.current_position = ms.length
      ∧ (∀ i, i < N → ((r'.mats.getD i none).isSome = true ↔ i < min ms.length N))
      ∧ (∀ i j, j ≤ i → i < N → (r'.mats.getD i none).isSome = true →
          (r'.mats.getD j none).isSome = true)
      ∧ (∀ i m target, r'.mats.get? i = some (some m) → m.name <+: target →
          ∃ j, j ≤ i ∧ find_matrix_given_name r'.mats N (some target) = some j) := by
  obtain ⟨r', h1, h2, h3, h4⟩ := insert_all_occupied N hpos ms ⟨List.replicate N none, 0⟩
    (by simp)
    (by
      intro i hi
      simp [List.getD_eq_getElem?_getD, List.getElem?_replicate, hi])
  simp only [Nat.zero_add] at h3
  rw [h3] at h4
  have hseg : ∀ i j, j ≤ i → i < N → (r'.mats.getD i none).isSome = true →
      (r'.mats.getD j none).isSome = true := by
    intro i j hji hi hocc
    have := (h4 i hi).1 hocc
    exact (h4 j (by omega)).2 (by omega)
  refine ⟨r', h1, h2, h3, h4, hseg, ?_⟩
  intro i m target hi hm
  have hlt : i < N := by
    rcases Nat.lt_or_ge i r'.mats.length with h | h
    · omega
    · rw [List.get?_eq_none.2 h] at hi
      exact Option.noConfusion hi
  have hocc : (r'.mats.getD i none).isSome = true := by
    rw [List.getD_eq_getElem?_getD, ← List.get?_eq_getElem?, hi]
    rfl
  have hbefore : ∀ j, j < i → ∃ mj, r'.mats.get? j = some (some mj) := by
    intro j hj
    have hjo := hseg i j (by omega) hlt hocc
    have hjl : j < r'.mats.length := by omega
    rw [List.getD_eq_getElem?_getD, List.getElem?_eq_getElem hjl] at hjo
    rw [List.get?_eq_getElem?, List.getElem?_eq_getElem hjl]
    cases hv : r'.mats[j] with
    | none => rw [hv] at hjo; simp at hjo
    | some mj => exact ⟨mj, rfl⟩
  obtain ⟨j, hj, hf⟩ := find_from_reaches target N r'.mats 0 i m hi hbefore hm (by omega)
  refine ⟨j, hj, ?_⟩
  rw [Nat.zero_add, Nat.mod_eq_of_lt (by omega)] at hf
  exact hf

/-- C21, witness: three insertions into the empty registry of two slots. -/
theorem occupied_initial_segment_witness :
    ∃ r', insert_all 2 ⟨List.replicate 2 none, 0⟩ [scenario_X, scenario_Y, scenario_Z] = some r'
      ∧ r'.mats.length = 2
      ∧ r'.current_position = [scenario_X, scenario_Y, scenario_Z].length
      ∧ (∀ i, i < 2 → ((r'.mats.getD i none).isSome = true
          ↔ i < min [scenario_X, scenario_Y, scenario_Z].length 2))
      ∧ (∀ i j, j ≤ i → i < 2 → (r'.mats.getD i none).isSome = true →
          (r'.mats.getD j none).isSome = true)
      ∧ (∀ i m target, r'.mats.get? i = some (some m) → m.name <+: target →
          ∃ j, j ≤ i ∧ find_matrix_given_name r'.mats 2 (some target) = some j) :=
  occupied_initial_segment 2 [scenario_X, scenario_Y, scenario_Z] (by decide) (by decide)

end OSF15
